import Mathlib

/-!
Verification of the exam-question extraction workflow (`src/workflow.py`).

The Python orchestrator is shallowly embedded: each stage's pure core
(state reads/writes, list arithmetic, branching) is a Lean function over
explicit state values; the inference collaborator (LLM) is an oracle
parameter; Python `int` is `Int`, `len` is `List.length`, dictionary
entries keyed by page index are `Nat → Option _` or `Option _` arguments.
-/

namespace FmpAgent

/-- Embeds `QuestionOption` from `src/models.py`: a single MCQ option. -/
structure QuestionOption where
  option : String
deriving Repr, DecidableEq

/-- Embeds `Question` from `src/models.py`: question text, options, number. -/
structure Question where
  question : String
  options : List QuestionOption
  number : Int
deriving Repr, DecidableEq

/-- The registered / referenced node names of the `StateGraph` built in
`Workflow._build_workflow` (`workflow.py`, lines 30-109).  `END` stands
for langgraph's terminal pseudo-node. -/
inductive Node where
  | start
  | extract_page_text
  | review_page_text
  | extract_questions_numbers
  | review_questions_numbers
  | advance_page
  | extract_clinical_cases
  | remove_clinical_cases_from_page_text
  | concatenate_pages_text
  | extract_questions_using_numbers
  | extract_each_page_questions
  | END
deriving Repr, DecidableEq

/-- The nodes actually registered with `graph.add_node` in
`_build_workflow` (lines 35-46).  Note the commented-out registrations of
`suggest_page_fixes` and `review_page_text` in the source. -/
def registeredNodes : List Node :=
  [Node.start, Node.extract_page_text, Node.extract_questions_numbers,
   Node.review_questions_numbers, Node.advance_page,
   Node.extract_clinical_cases, Node.remove_clinical_cases_from_page_text,
   Node.concatenate_pages_text, Node.extract_questions_using_numbers,
   Node.extract_each_page_questions]

/-- The unconditional edges added with `graph.add_edge`
(`_build_workflow`, lines 54-58 and 88-89). -/
def directEdges : List (Node × Node) :=
  [(Node.start, Node.extract_page_text),
   (Node.extract_page_text, Node.review_page_text),
   (Node.review_page_text, Node.extract_questions_numbers),
   (Node.extract_questions_numbers, Node.review_questions_numbers),
   (Node.review_questions_numbers, Node.extract_clinical_cases),
   (Node.concatenate_pages_text, Node.extract_questions_using_numbers),
   (Node.extract_questions_using_numbers, Node.extract_each_page_questions)]

/-- A subset of `ExtractionState` (`src/models.py`) sufficient for the
stages verified here, with the model's default field values. -/
structure ExtractionState where
  current_phase : String := "extract_page_text"
  exam_images : List String := []
  current_page_index : Nat := 0
  pages_text : List String := []
  exam_questions : List Question := []

/-- Embeds the text-window construction of
`_extract_questions_using_numbers_step` (`workflow.py`, lines 420-430):
the window for the current page is built from at most two adjacent pages
joined by a newline. -/
def windowText (pages_text : List String) (current_page_index : Nat) : String :=
  if current_page_index = 0 then
    if pages_text.length > 1 then
      pages_text.getD 0 "" ++ "\n" ++ pages_text.getD 1 ""
    else
      pages_text.getD 0 ""
  else if current_page_index = pages_text.length - 1 then
    pages_text.getD (current_page_index - 1) "" ++ "\n" ++ pages_text.getD current_page_index ""
  else
    pages_text.getD current_page_index "" ++ "\n" ++ pages_text.getD (current_page_index + 1) ""

/-- Embeds the value stored into `state.pages_questions_map` by the two
number passes.  The review pass's over-8 branch (`workflow.py`, line 321)
stores the bare class `PageQuestionsNumbers` — not an instance — which is
modelled by the distinguished constructor `classObject`; a proper
instance with its `question_numbers` list is `value`. -/
inductive StoredPageQuestionsNumbers where
  | value (question_numbers : List Int)
  | classObject
deriving Repr, DecidableEq

/-- Embeds the store of `_extract_questions_numbers_step`
(`workflow.py`, line 290): `response if len(response.question_numbers) <= 8
else PageQuestionsNumbers(question_numbers=[])`. -/
def extract_questions_numbers_store (response : List Int) : StoredPageQuestionsNumbers :=
  if response.length ≤ 8 then .value response else .value []

/-- Embeds the store of `_review_questions_numbers_step`
(`workflow.py`, line 321): `response if len(response.question_numbers) <= 8
else PageQuestionsNumbers` — the else-branch yields the class object
itself, since the call parentheses are missing in the source. -/
def review_questions_numbers_store (response : List Int) : StoredPageQuestionsNumbers :=
  if response.length ≤ 8 then .value response else .classObject

/-- Embeds the seed computation of `_extract_questions_text_step`
(`workflow.py`, lines 190-197): for page index above 0 it is the sum of
the lengths of the question-number lists of all earlier pages that are
present in `pages_questions_map`, plus one; for page 0 it is 1.  The map
is embedded as `Nat → Option (List Int)` (absent key = `none`). -/
def total_prev_questions (pages_questions_map : Nat → Option (List Int)) (current_page_index : Nat) : Nat :=
  if current_page_index > 0 then
    ((List.range current_page_index).map (fun i =>
      match pages_questions_map i with
      | some l => l.length
      | none => 0)).sum + 1
  else 1

/-- Embeds the guarded-by-nothing page-image access at the top of
`_extract_questions_text_step` (`workflow.py`, line 189):
`state.exam_images[state.current_page_index]`.  Python raises `IndexError`
when the index is out of range; the embedding returns `Except.error`. -/
def exam_image_access (exam_images : List String) (current_page_index : Nat) : Except String String :=
  match exam_images[current_page_index]? with
  | some img => Except.ok img
  | none => Except.error "list index out of range"

/-- Embeds `Workflow.handle_quota` (`workflow.py`, lines 578-584): the
call counter `gLlmCalls` is incremented, then the run sleeps for 30
seconds exactly when the incremented counter is a multiple of
`max_quota`.  Returns the new counter and whether the sleep happens. -/
def handle_quota (gLlmCalls max_quota : Nat) : Nat × Bool :=
  let calls := gLlmCalls + 1
  (calls, calls % max_quota == 0)

/-- The `max_quota` configured in `Workflow.__init__` (`workflow.py`, line 25). -/
def max_quota_default : Nat := 1000

/-- Inference calls (`ainvoke` on either model) issued by one execution
of each stage coroutine, read off `workflow.py`.  The per-page question
step (`_extract_each_page_questions_step`) calls once per retry-loop
attempt, so it takes the number of attempts as a parameter; stages
without inference calls yield 0. -/
def stage_inference_calls : Node → Nat → Nat
  | Node.extract_page_text, _ => 1
  | Node.review_page_text, _ => 1
  | Node.extract_questions_numbers, _ => 1
  | Node.review_questions_numbers, _ => 1
  | Node.extract_clinical_cases, _ => 1
  | Node.remove_clinical_cases_from_page_text, _ => 1
  | Node.extract_questions_using_numbers, _ => 1
  | Node.extract_each_page_questions, attempts => attempts
  | _, _ => 0

/-- `handle_quota` invocations (counter increments) issued by one
execution of each stage coroutine, read off `workflow.py`: only
`_review_page_text_step` (line 181), `_extract_questions_text_step`
(line 241), `_extract_clinical_cases_step` (line 372) and each attempt of
`_extract_each_page_questions_step` (line 512) call `handle_quota`. -/
def stage_quota_increments : Node → Nat → Nat
  | Node.extract_page_text, _ => 1
  | Node.review_page_text, _ => 1
  | Node.extract_clinical_cases, _ => 1
  | Node.extract_each_page_questions, attempts => attempts
  | _, _ => 0

/-- The stages whose inference calls go through `self.gLlm`
(`workflow.py`): exactly those followed by a `handle_quota` call. -/
def usesGLlm : Node → Bool
  | Node.extract_page_text => true
  | Node.review_page_text => true
  | Node.extract_clinical_cases => true
  | Node.extract_each_page_questions => true
  | _ => false

/-- Embeds `_advance_page_step` (`workflow.py`, lines 327-334): below the
last page index the index is incremented; otherwise `current_phase` is
set to the content-pass marker string. -/
def advance_page_step (state : ExtractionState) : ExtractionState :=
  if state.current_page_index < state.exam_images.length - 1 then
    { state with current_page_index := state.current_page_index + 1 }
  else
    { state with current_phase := "extract_each_page_questions" }

/-- Embeds the conditional edges out of `advance_page`
(`_build_workflow`, lines 100-107): the router inspects
`state.current_phase` of the state returned by the step and maps
`"extract_page_text"` to the `extract_page_text` node and
`"extract_each_page_questions"` to `extract_questions_using_numbers`;
any other phase has no mapping. -/
def advance_page_route (current_phase : String) : Option Node :=
  if current_phase = "extract_page_text" then some Node.extract_page_text
  else if current_phase = "extract_each_page_questions" then some Node.extract_questions_using_numbers
  else none

/-- Embeds `questions_count_difference`'s initial value
(`workflow.py`, line 534):
`abs(len(current_page_map.question_numbers) - len(response.questions))`. -/
def questions_count_difference_base (question_numbers : List Int) (response_questions : List Question) : Nat :=
  ((question_numbers.length : Int) - (response_questions.length : Int)).natAbs

/-- Embeds the cross-page-gap addition (`workflow.py`, lines 538-550):
when the current page's expected list is non-empty, the next page index
is within `exam_images`, and the next page's map entry exists with a
non-empty list, then with `diff = next_first_question -
last_current_question`, if `1 < diff < 8` the amount `diff - 1` is added
to the count difference; in every other case nothing is added. -/
def cross_page_gap_adjustment (question_numbers : List Int) (current_page_index num_images : Nat) (next_page_map : Option (List Int)) : Nat :=
  match question_numbers.getLast? with
  | none => 0
  | some last_current_question =>
    let next_first_question : Option Int :=
      if current_page_index + 1 < num_images then
        match next_page_map with
        | some nl => nl.head?
        | none => none
      else none
    match next_first_question with
    | none => 0
    | some nf =>
      let diff := nf - last_current_question
      if 1 < diff ∧ diff < 8 then (diff - 1).toNat else 0

/-- The placeholder `Question` synthesized by the reconciliation step
(`workflow.py`, lines 555-556): text "Filling Question", number 0, and
five options each reading "Filling Option". -/
def filling_question : Question :=
  { question := "Filling Question"
    options := List.replicate 5 { option := "Filling Option" }
    number := 0 }

/-- Embeds `missing_sequential_questions` (`workflow.py`, line 535): it
is initialized to the empty list and never assigned afterwards, so the
`elif` branch guarded by its length (line 559) is dead code. -/
def missing_sequential_questions : List Int := []

/-- Embeds the placeholder synthesis (`workflow.py`, lines 554-561):
`questions_count_difference` placeholders when it lies strictly between
0 and 8, else the dead `missing_sequential_questions` branch, else none. -/
def filling_questions (questions_count_difference : Nat) : List Question :=
  if 0 < questions_count_difference ∧ questions_count_difference < 8 then
    List.replicate questions_count_difference filling_question
  else if 0 < missing_sequential_questions.length ∧ missing_sequential_questions.length < 8 then
    List.replicate missing_sequential_questions.length filling_question
  else []

/-- One page's contribution to `state.exam_questions`
(`workflow.py`, lines 533-566): the real parsed questions of the final
attempt followed by the synthesized placeholders. -/
def page_contribution (question_numbers : List Int) (response_questions : List Question) (current_page_index num_images : Nat) (next_page_map : Option (List Int)) : List Question :=
  response_questions ++
    filling_questions
      (questions_count_difference_base question_numbers response_questions +
       cross_page_gap_adjustment question_numbers current_page_index num_images next_page_map)

/-- `countDiff` written from the claim's words (spec §4.4 steps 3-4) for
comparison with the source-derived computation: `|expectedCount -
actualCount|`, plus `gap - 1` when the current and next pages' expected
number lists are both non-empty and `gap = firstNumberOfNextPage -
lastNumberOfCurrentPage` satisfies `1 < gap < 8`. -/
def specCountDiff (question_numbers : List Int) (actualCount : Nat) (next_numbers : Option (List Int)) : Nat :=
  ((question_numbers.length : Int) - (actualCount : Int)).natAbs +
    match question_numbers.getLast?, next_numbers with
    | some last_current, some nl =>
      match nl.head? with
      | some next_first =>
        let gap := next_first - last_current
        if 1 < gap ∧ gap < 8 then (gap - 1).toNat else 0
      | none => 0
    | _, _ => 0

/-- One record of the retry loop of `_extract_each_page_questions_step`
(`workflow.py`, lines 478-524): the feedback threaded into this attempt's
prompt (`hasFailed` and `missingQuestions`) and the question numbers of
the collaborator's response to it. -/
structure AttemptRecord where
  hasFailed : Bool
  missingQuestions : List Int
  responseNumbers : List Int
deriving Repr, DecidableEq

/-- The retry loop of `_extract_each_page_questions_step`
(`workflow.py`, lines 478-524), with the collaborator abstracted as
`response : Nat → List Question` giving the parsed questions returned on
each attempt.  Arguments mirror the loop variables: remaining
`retryCount` (fuel), attempt index, `hasFailed`, `missingQuestions`, and
the `response` of the previous attempt.  Returns the trace of attempts
and the final `response.questions` value used after the loop. -/
def retry_loop_aux (response : Nat → List Question) (question_numbers : List Int) :
    Nat → Nat → Bool → List Int → List Question → List AttemptRecord × List Question
  | 0, _, _, _, last => ([], last)
  | retryCount + 1, attempt, hasFailed, missing, _ =>
    let r := response attempt
    let extracted_question_numbers := r.map (fun q => q.number)
    let record : AttemptRecord := ⟨hasFailed, missing, extracted_question_numbers⟩
    if extracted_question_numbers.length = question_numbers.length then
      ([record], r)
    else
      let missing2 := question_numbers.filter (fun q => q ∉ extracted_question_numbers)
      let rest := retry_loop_aux response question_numbers retryCount (attempt + 1) true missing2 r
      (record :: rest.1, rest.2)

/-- The retry loop entered with `retryCount = 3`, `hasFailed = False`,
`missingQuestions = []` (`workflow.py`, lines 478-483). -/
def run_retry_loop (response : Nat → List Question) (question_numbers : List Int) :
    List AttemptRecord × List Question :=
  retry_loop_aux response question_numbers 3 0 false [] []

/-- Embeds the accumulation `state.exam_questions = state.exam_questions
+ new_questions + filling_questions` (`workflow.py`, lines 563-566)
iterated over the content-pass pages in index order: the fold of list
append over the per-page contributions. -/
def content_pass_merge (contributions : List (List Question)) : List Question :=
  contributions.foldl (fun exam_questions contribution => exam_questions ++ contribution) []

/-- Page-of-origin tags for the merged question list: position `j` of
`origin_tags contributions k` is the page index (starting at `k`) whose
contribution supplied position `j` of the concatenation. -/
def origin_tags : List (List Question) → Nat → List Nat
  | [], _ => []
  | c :: cs, k => List.replicate c.length k ++ origin_tags cs (k + 1)

/-- C2: the claim says both number passes coerce an over-8 response to
the empty number list.  The detection pass does (line 290), but the
review pass's else-branch (line 321) stores the bare class object —
`PageQuestionsNumbers` without the `(question_numbers=[])` call — so on
a 9-number review response the stored entry is not the empty list (nor
any list value at all).  This theorem evaluates both passes at that
failing input. -/
theorem C2_code_eval :
    review_questions_numbers_store [1, 2, 3, 4, 5, 6, 7, 8, 9] =
      StoredPageQuestionsNumbers.classObject ∧
    StoredPageQuestionsNumbers.classObject ≠ StoredPageQuestionsNumbers.value [] ∧
    extract_questions_numbers_store [1, 2, 3, 4, 5, 6, 7, 8, 9] =
      StoredPageQuestionsNumbers.value [] := by
  refine ⟨rfl, by decide, rfl⟩

/-- C3: the text window of `WINDOWED_QUESTION_EXTRACTION` is page 0
alone for a 1-page run; for a 2-page run both windows are page 0 joined
with page 1; for N ≥ 3 pages, window 0 is page 0 + page 1, the last
window is page N-2 + page N-1, and every middle window i is page i +
page i+1, the pairs joined by a newline. -/
theorem C3_window_rule (pages_text : List String) :
    (pages_text.length = 1 → windowText pages_text 0 = pages_text.getD 0 "") ∧
    (pages_text.length = 2 →
      windowText pages_text 0 = pages_text.getD 0 "" ++ "\n" ++ pages_text.getD 1 "" ∧
      windowText pages_text 1 = pages_text.getD 0 "" ++ "\n" ++ pages_text.getD 1 "") ∧
    (3 ≤ pages_text.length →
      windowText pages_text 0 = pages_text.getD 0 "" ++ "\n" ++ pages_text.getD 1 "" ∧
      windowText pages_text (pages_text.length - 1) =
        pages_text.getD (pages_text.length - 2) "" ++ "\n" ++
          pages_text.getD (pages_text.length - 1) "" ∧
      ∀ i, 0 < i → i < pages_text.length - 1 →
        windowText pages_text i =
          pages_text.getD i "" ++ "\n" ++ pages_text.getD (i + 1) "") := by
  refine ⟨fun h => ?_, fun h => ⟨?_, ?_⟩, fun h => ⟨?_, ?_, fun i hi1 hi2 => ?_⟩⟩
  · simp [windowText, h]
  · simp [windowText, h]
  · simp [windowText, h]
  · have h1 : pages_text.length > 1 := by omega
    simp [windowText, h1]
  · have h0 : pages_text.length - 1 ≠ 0 := by omega
    have he : pages_text.length - 1 - 1 = pages_text.length - 2 := by omega
    simp [windowText, h0, he]
  · have h0 : i ≠ 0 := by omega
    have h1 : i ≠ pages_text.length - 1 := by omega
    simp [windowText, h0, h1]

/-- Witness for C3 at the concrete 3-page run ["a", "b", "c"]: the last
window is page 1 joined with page 2. -/
theorem C3_window_rule_witness :
    windowText ["a", "b", "c"] 2 = "b" ++ "\n" ++ "c" := by
  have h := ((C3_window_rule ["a", "b", "c"]).2.2 (by norm_num)).2.1
  simpa using h

/-- C5 counterexample: the claim says the shared call counter is
incremented on every inference call made from any stage, i.e. the quota
increments of each stage equal its inference calls.  This is false at
the question-number detection stage, which makes one inference call
(line 288) but never calls `handle_quota`. -/
theorem C5_counterexample :
    ¬ ∀ (s : Node) (attempts : Nat),
        stage_quota_increments s attempts = stage_inference_calls s attempts := by
  intro h
  have hc := h Node.extract_questions_numbers 1
  simp [stage_quota_increments, stage_inference_calls] at hc

/-- C5 amended: the counter is incremented once per inference call in
exactly the `gLlm`-backed stages (page-text extraction, page-text
review, clinical-case detection, and each parse attempt of the per-page
question step) and not by the other stages' calls; `handle_quota`
increments the counter and sleeps exactly when the incremented counter
is a multiple of `max_quota`, so with quota N ≥ 2 the sleep happens
after tracked call N while tracked calls N-1 and N+1 are not delayed. -/
theorem C5_amended_quota :
    (∀ (s : Node) (attempts : Nat),
      stage_quota_increments s attempts =
        if usesGLlm s then stage_inference_calls s attempts else 0) ∧
    (∀ gLlmCalls mq : Nat,
      (handle_quota gLlmCalls mq).1 = gLlmCalls + 1 ∧
      ((handle_quota gLlmCalls mq).2 = true ↔ (gLlmCalls + 1) % mq = 0)) ∧
    (∀ N : Nat, 2 ≤ N →
      (handle_quota (N - 2) N).2 = false ∧
      (handle_quota (N - 1) N).2 = true ∧
      (handle_quota N N).2 = false) := by
  refine ⟨fun s a => ?_, fun c q => ⟨rfl, ?_⟩, fun N hN => ⟨?_, ?_, ?_⟩⟩
  · cases s <;> rfl
  · simp [handle_quota]
  · simp only [handle_quota, beq_eq_false_iff_ne, ne_eq]
    rw [show N - 2 + 1 = N - 1 by omega, Nat.mod_eq_of_lt (by omega)]
    omega
  · simp only [handle_quota, beq_iff_eq]
    rw [show N - 1 + 1 = N by omega, Nat.mod_self]
  · simp only [handle_quota, beq_eq_false_iff_ne, ne_eq]
    rw [Nat.add_mod_left, Nat.mod_eq_of_lt (by omega)]
    omega

/-- Witness for C5 amended at the configured quota 1000: tracked call
999 does not sleep, call 1000 sleeps, call 1001 does not. -/
theorem C5_amended_quota_witness :
    (handle_quota 998 max_quota_default).2 = false ∧
    (handle_quota 999 max_quota_default).2 = true ∧
    (handle_quota 1000 max_quota_default).2 = false := by
  have h := C5_amended_quota.2.2 1000 (by norm_num)
  simpa [max_quota_default] using h

/-- C6 counterexample: in a metadata-pass state at the last page index
(single page, index 0, phase "extract_page_text"), the `advance_page`
step followed by its conditional-edge router reaches
`extract_questions_using_numbers`, not `concatenate_pages_text` as the
claim states; the router has no mapping to `concatenate_pages_text` at
all. -/
theorem C6_counterexample :
    (({ exam_images := ["page0"] } : ExtractionState).current_phase = "extract_page_text") ∧
    ¬ (({ exam_images := ["page0"] } : ExtractionState).current_page_index <
        ({ exam_images := ["page0"] } : ExtractionState).exam_images.length - 1) ∧
    advance_page_route
        (advance_page_step { exam_images := ["page0"] }).current_phase =
      some Node.extract_questions_using_numbers ∧
    some Node.extract_questions_using_numbers ≠ some Node.concatenate_pages_text := by
  refine ⟨rfl, by decide, by decide, by decide⟩

/-- C6 amended: in the metadata pass (phase "extract_page_text"), when
`current_page_index` is below the last index, `advance_page` increments
it, leaves the phase unchanged, and the router returns to
`extract_page_text`; when it is at the last index, `advance_page` sets
the phase to the content-pass marker without incrementing, and the
router routes to `extract_questions_using_numbers` (windowed question
extraction) — not to `concatenate_pages_text`, which is reached directly
from the clinical-case stages instead. -/
theorem C6_advance_page_amended (state : ExtractionState)
    (hphase : state.current_phase = "extract_page_text") :
    (state.current_page_index < state.exam_images.length - 1 →
      (advance_page_step state).current_page_index = state.current_page_index + 1 ∧
      (advance_page_step state).current_phase = "extract_page_text" ∧
      advance_page_route (advance_page_step state).current_phase =
        some Node.extract_page_text) ∧
    (¬ state.current_page_index < state.exam_images.length - 1 →
      (advance_page_step state).current_page_index = state.current_page_index ∧
      (advance_page_step state).current_phase = "extract_each_page_questions" ∧
      advance_page_route (advance_page_step state).current_phase =
        some Node.extract_questions_using_numbers) := by
  constructor
  · intro h
    simp [advance_page_step, h, hphase, advance_page_route]
  · intro h
    simp [advance_page_step, h, advance_page_route]

/-- Witness for C6 amended: with two pages at index 0 the step advances
to index 1 and routes back to `extract_page_text`. -/
theorem C6_advance_page_amended_witness :
    (advance_page_step { exam_images := ["p0", "p1"] }).current_page_index = 0 + 1 ∧
    (advance_page_step { exam_images := ["p0", "p1"] }).current_phase = "extract_page_text" ∧
    advance_page_route (advance_page_step { exam_images := ["p0", "p1"] }).current_phase =
      some Node.extract_page_text :=
  (C6_advance_page_amended { exam_images := ["p0", "p1"] } rfl).1 (by decide)

/-- C7: the claim says the node after `extract_page_text` is
`extract_questions_numbers` and that the edge table names only
registered stages.  In the source, the edges route `extract_page_text`
through `review_page_text` (lines 55-56), whose `add_node` registration
is commented out (line 37), so the table references an unregistered
stage and there is no direct edge from `extract_page_text` to
`extract_questions_numbers`. -/
theorem C7_code_eval :
    (Node.extract_page_text, Node.review_page_text) ∈ directEdges ∧
    (Node.review_page_text, Node.extract_questions_numbers) ∈ directEdges ∧
    Node.review_page_text ∉ registeredNodes ∧
    (Node.extract_page_text, Node.extract_questions_numbers) ∉ directEdges := by
  refine ⟨by decide, by decide, by decide, by decide⟩

/-- C9: the free-text completion seed of `PAGE_TEXT_EXTRACTION` is the
sum of the lengths of all prior pages' confirmed question-number lists
plus one, whenever all prior pages have entries in
`pages_questions_map`; in particular the seed for page 0 is 1. -/
theorem C9_seed (pages_questions_map : Nat → Option (List Int)) (L : Nat → List Int)
    (current_page_index : Nat)
    (h : ∀ j, j < current_page_index → pages_questions_map j = some (L j)) :
    total_prev_questions pages_questions_map current_page_index =
      ((List.range current_page_index).map (fun j => (L j).length)).sum + 1 ∧
    total_prev_questions pages_questions_map 0 = 1 := by
  constructor
  · by_cases hpos : current_page_index > 0
    · rw [total_prev_questions, if_pos hpos]
      have hmap : (List.range current_page_index).map (fun i =>
          match pages_questions_map i with
          | some l => l.length
          | none => 0) =
          (List.range current_page_index).map (fun j => (L j).length) := by
        refine List.map_congr_left (fun a ha => ?_)
        rw [h a (List.mem_range.mp ha)]
      rw [hmap]
    · have h0 : current_page_index = 0 := by omega
      subst h0
      simp [total_prev_questions]
  · rfl

/-- Witness for C9 at a concrete map holding [1, 2] for page 0 and
[3] for page 1: the seed for page 2 is 2 + 1 + 1 = 4. -/
theorem C9_seed_witness :
    total_prev_questions
      (fun j => if j = 0 then some [1, 2] else if j = 1 then some [3] else none) 2 =
      ((List.range 2).map (fun j =>
        ((fun j => if j = 0 then [1, 2] else if j = 1 then [3] else []) j).length)).sum + 1 := by
  have h := (C9_seed
    (fun j => if j = 0 then some [1, 2] else if j = 1 then some [3] else none)
    (fun j => if j = 0 then [1, 2] else if j = 1 then [3] else []) 2
    (by intro j hj; interval_cases j <;> rfl)).1
  exact h

/-- C10: the default initial run context has no pages and page index 0,
the first stage after `start` is `extract_page_text`, and that stage's
unguarded `state.exam_images[state.current_page_index]` access fails
out-of-bounds on the empty page list instead of producing an empty
result, so an empty run aborts rather than terminating normally. -/
theorem C10_empty_pages :
    ({} : ExtractionState).exam_images = [] ∧
    ({} : ExtractionState).current_page_index = 0 ∧
    (Node.start, Node.extract_page_text) ∈ directEdges ∧
    exam_image_access ({} : ExtractionState).exam_images
        ({} : ExtractionState).current_page_index =
      Except.error "list index out of range" := by
  refine ⟨rfl, rfl, by decide, rfl⟩

/-- The `elif` branch of the placeholder synthesis is dead
(`missing_sequential_questions` is always empty), so the placeholders
are `questions_count_difference` copies of `filling_question` exactly
when that count lies strictly between 0 and 8, and none otherwise. -/
theorem filling_questions_eq (questions_count_difference : Nat) :
    filling_questions questions_count_difference =
      if 0 < questions_count_difference ∧ questions_count_difference < 8 then
        List.replicate questions_count_difference filling_question
      else [] := by
  unfold filling_questions
  simp [missing_sequential_questions]

/-- For the last page (no next page within `exam_images`) the source
adds no cross-page gap, agreeing with the claim-side `specCountDiff`
taken with no next-page number list. -/
theorem countDiff_eq_spec_last (question_numbers : List Int) (response_questions : List Question)
    (current_page_index num_images : Nat) (next_page_map : Option (List Int))
    (hnext : ¬ current_page_index + 1 < num_images) :
    questions_count_difference_base question_numbers response_questions +
      cross_page_gap_adjustment question_numbers current_page_index num_images next_page_map =
    specCountDiff question_numbers response_questions.length none := by
  unfold questions_count_difference_base cross_page_gap_adjustment specCountDiff
  cases hql : question_numbers.getLast? with
  | none => simp
  | some lc => simp [hnext]

/-- When the next page index lies within `exam_images`, the source's
count difference (base mismatch plus cross-page-gap addition) agrees
with the claim-side `specCountDiff`. -/
theorem countDiff_eq_spec (question_numbers : List Int) (response_questions : List Question)
    (current_page_index num_images : Nat) (next_page_map : Option (List Int))
    (hnext : current_page_index + 1 < num_images) :
    questions_count_difference_base question_numbers response_questions +
      cross_page_gap_adjustment question_numbers current_page_index num_images next_page_map =
    specCountDiff question_numbers response_questions.length next_page_map := by
  unfold questions_count_difference_base cross_page_gap_adjustment specCountDiff
  cases hql : question_numbers.getLast? with
  | none => cases next_page_map <;> simp
  | some lc =>
    cases next_page_map with
    | none => simp [hnext]
    | some nl =>
      cases hh : nl.head? with
      | none => simp [hnext, hh]
      | some nf => simp [hnext, hh]

/-- C1: for every content-pass page the questions merged for the page
are the real parsed questions of the final attempt followed by exactly
`countDiff` placeholders when `0 < countDiff < 8` and by none otherwise,
where `countDiff` is the absolute expected-vs-actual mismatch plus
`gap - 1` whenever a next page exists, both the current and next pages'
expected number lists are non-empty and the cross-page gap satisfies
`1 < gap < 8` (for the last page no gap is added); each placeholder has
number 0, text "Filling Question" and exactly five options reading
"Filling Option". -/
theorem C1_reconciliation (question_numbers : List Int) (response_questions : List Question)
    (current_page_index num_images : Nat) (next_page_map : Option (List Int)) :
    (current_page_index + 1 < num_images →
      page_contribution question_numbers response_questions current_page_index num_images
          next_page_map =
        response_questions ++
          (if 0 < specCountDiff question_numbers response_questions.length next_page_map ∧
              specCountDiff question_numbers response_questions.length next_page_map < 8 then
            List.replicate
              (specCountDiff question_numbers response_questions.length next_page_map)
              filling_question
          else [])) ∧
    (¬ current_page_index + 1 < num_images →
      page_contribution question_numbers response_questions current_page_index num_images
          next_page_map =
        response_questions ++
          (if 0 < specCountDiff question_numbers response_questions.length none ∧
              specCountDiff question_numbers response_questions.length none < 8 then
            List.replicate (specCountDiff question_numbers response_questions.length none)
              filling_question
          else [])) ∧
    filling_question.number = 0 ∧
    filling_question.question = "Filling Question" ∧
    filling_question.options = List.replicate 5 { option := "Filling Option" } := by
  refine ⟨fun hnext => ?_, fun hnext => ?_, rfl, rfl, rfl⟩
  · unfold page_contribution
    rw [countDiff_eq_spec question_numbers response_questions current_page_index num_images
      next_page_map hnext, filling_questions_eq]
  · unfold page_contribution
    rw [countDiff_eq_spec_last question_numbers response_questions current_page_index num_images
      next_page_map hnext, filling_questions_eq]

/-- A concrete real question used by the C1 witness. -/
def exampleQuestionFive : Question :=
  { question := "Example question five", options := [], number := 5 }

/-- A concrete real question used by the C1 witness. -/
def exampleQuestionSix : Question :=
  { question := "Example question six", options := [], number := 6 }

/-- Witness for C1 at the spec's reconciliation example: the page
expects [5, 6, 7], the final attempt returns two questions, the next
page's first expected number is 9, so countDiff = 1 + (2 - 1) = 2 and
exactly two placeholders follow the two real questions. -/
theorem C1_reconciliation_witness :
    0 + 1 < 2 ∧
    page_contribution [5, 6, 7] [exampleQuestionFive, exampleQuestionSix] 0 2 (some [9]) =
      [exampleQuestionFive, exampleQuestionSix] ++ List.replicate 2 filling_question := by
  refine ⟨by norm_num, ?_⟩
  have h := (C1_reconciliation [5, 6, 7] [exampleQuestionFive, exampleQuestionSix] 0 2
    (some [9])).1 (by norm_num)
  rw [h]
  decide

/-- The corrective-feedback relation between consecutive attempts of the
retry loop: the earlier attempt returned a wrong count, and the later
attempt was issued with `hasFailed` set and `missingQuestions` equal to
the expected numbers minus the earlier attempt's returned numbers. -/
def retryFeedbackRel (question_numbers : List Int) (a b : AttemptRecord) : Prop :=
  a.responseNumbers.length ≠ question_numbers.length ∧
  b.hasFailed = true ∧
  b.missingQuestions = question_numbers.filter (fun q => q ∉ a.responseNumbers)

/-- One unfolding of `retry_loop_aux` at positive remaining budget. -/
theorem retry_loop_aux_succ (r : Nat → List Question) (qn : List Int) (n attempt : Nat)
    (hasFailed : Bool) (missing : List Int) (last : List Question) :
    retry_loop_aux r qn (n + 1) attempt hasFailed missing last =
      if ((r attempt).map (fun q => q.number)).length = qn.length then
        ([⟨hasFailed, missing, (r attempt).map (fun q => q.number)⟩], r attempt)
      else
        (⟨hasFailed, missing, (r attempt).map (fun q => q.number)⟩ ::
          (retry_loop_aux r qn n (attempt + 1) true
            (qn.filter (fun q => q ∉ (r attempt).map (fun q => q.number))) (r attempt)).1,
         (retry_loop_aux r qn n (attempt + 1) true
            (qn.filter (fun q => q ∉ (r attempt).map (fun q => q.number))) (r attempt)).2) :=
  rfl

/-- The trace component of one unfolding of `retry_loop_aux`. -/
theorem retry_trace_succ (r : Nat → List Question) (qn : List Int) (n attempt : Nat)
    (hasFailed : Bool) (missing : List Int) (last : List Question) :
    (retry_loop_aux r qn (n + 1) attempt hasFailed missing last).1 =
      if ((r attempt).map (fun q => q.number)).length = qn.length then
        [⟨hasFailed, missing, (r attempt).map (fun q => q.number)⟩]
      else
        ⟨hasFailed, missing, (r attempt).map (fun q => q.number)⟩ ::
          (retry_loop_aux r qn n (attempt + 1) true
            (qn.filter (fun q => q ∉ (r attempt).map (fun q => q.number))) (r attempt)).1 := by
  rw [retry_loop_aux_succ]
  split <;> rfl

/-- The final-response component of one unfolding of `retry_loop_aux`. -/
theorem retry_final_succ (r : Nat → List Question) (qn : List Int) (n attempt : Nat)
    (hasFailed : Bool) (missing : List Int) (last : List Question) :
    (retry_loop_aux r qn (n + 1) attempt hasFailed missing last).2 =
      if ((r attempt).map (fun q => q.number)).length = qn.length then
        r attempt
      else
        (retry_loop_aux r qn n (attempt + 1) true
          (qn.filter (fun q => q ∉ (r attempt).map (fun q => q.number))) (r attempt)).2 := by
  rw [retry_loop_aux_succ]
  split <;> rfl

/-- The retry-loop trace never exceeds the remaining retry budget. -/
theorem retry_trace_length_le (r : Nat → List Question) (qn : List Int) :
    ∀ fuel attempt hasFailed missing last,
      (retry_loop_aux r qn fuel attempt hasFailed missing last).1.length ≤ fuel := by
  intro fuel
  induction fuel with
  | zero => intro attempt hasFailed missing last; simp [retry_loop_aux]
  | succ n ih =>
    intro attempt hasFailed missing last
    rw [retry_trace_succ]
    by_cases hq : ((r attempt).map (fun q => q.number)).length = qn.length
    · rw [if_pos hq]
      simp
    · rw [if_neg hq]
      rw [List.length_cons]
      exact Nat.succ_le_succ (ih (attempt + 1) true
        (qn.filter (fun q => q ∉ (r attempt).map (fun q => q.number))) (r attempt))

/-- With positive retry budget the loop performs at least one attempt. -/
theorem retry_trace_ne_nil (r : Nat → List Question) (qn : List Int)
    (fuel attempt : Nat) (hasFailed : Bool) (missing : List Int) (last : List Question)
    (hf : 0 < fuel) :
    (retry_loop_aux r qn fuel attempt hasFailed missing last).1 ≠ [] := by
  cases fuel with
  | zero => omega
  | succ n =>
    rw [retry_trace_succ]
    by_cases hq : ((r attempt).map (fun q => q.number)).length = qn.length
    · rw [if_pos hq]
      simp
    · rw [if_neg hq]
      simp

/-- The first record of a retry-loop trace carries the feedback the loop
was entered with and the numbers of the response to the first attempt. -/
theorem retry_trace_head (r : Nat → List Question) (qn : List Int)
    (fuel attempt : Nat) (hasFailed : Bool) (missing : List Int) (last : List Question) :
    ∀ a ∈ (retry_loop_aux r qn fuel attempt hasFailed missing last).1.head?,
      a.hasFailed = hasFailed ∧ a.missingQuestions = missing ∧
      a.responseNumbers = (r attempt).map (fun q => q.number) := by
  cases fuel with
  | zero =>
    intro a ha
    simp [retry_loop_aux] at ha
  | succ n =>
    intro a ha
    rw [retry_trace_succ] at ha
    by_cases hq : ((r attempt).map (fun q => q.number)).length = qn.length
    · rw [if_pos hq] at ha
      simp only [List.head?_cons, Option.mem_def, Option.some.injEq] at ha
      subst ha
      exact ⟨rfl, rfl, rfl⟩
    · rw [if_neg hq] at ha
      simp only [List.head?_cons, Option.mem_def, Option.some.injEq] at ha
      subst ha
      exact ⟨rfl, rfl, rfl⟩

/-- Consecutive records of a retry-loop trace are related by the
corrective-feedback relation. -/
theorem retry_trace_chain (r : Nat → List Question) (qn : List Int) :
    ∀ fuel attempt hasFailed missing last,
      List.Chain' (retryFeedbackRel qn)
        (retry_loop_aux r qn fuel attempt hasFailed missing last).1 := by
  intro fuel
  induction fuel with
  | zero =>
    intro attempt hasFailed missing last
    simp [retry_loop_aux]
  | succ n ih =>
    intro attempt hasFailed missing last
    rw [retry_trace_succ]
    by_cases hq : ((r attempt).map (fun q => q.number)).length = qn.length
    · rw [if_pos hq]
      exact List.chain'_singleton _
    · rw [if_neg hq]
      rw [List.chain'_cons']
      refine ⟨?_, ih (attempt + 1) true
        (qn.filter (fun q => q ∉ (r attempt).map (fun q => q.number))) (r attempt)⟩
      intro b hb
      have hh := retry_trace_head r qn n (attempt + 1) true
        (qn.filter (fun q => q ∉ (r attempt).map (fun q => q.number))) (r attempt) b hb
      exact ⟨hq, hh.1, hh.2.1⟩

/-- The final `response` value after the loop has exactly the numbers
recorded in the last trace record. -/
theorem retry_final_eq_last (r : Nat → List Question) (qn : List Int) :
    ∀ fuel attempt hasFailed missing last,
      ∀ a ∈ (retry_loop_aux r qn fuel attempt hasFailed missing last).1.getLast?,
        (retry_loop_aux r qn fuel attempt hasFailed missing last).2.map (fun q => q.number) =
          a.responseNumbers := by
  intro fuel
  induction fuel with
  | zero =>
    intro attempt hasFailed missing last a ha
    simp [retry_loop_aux] at ha
  | succ n ih =>
    intro attempt hasFailed missing last a ha
    rw [retry_trace_succ] at ha
    rw [retry_final_succ]
    by_cases hq : ((r attempt).map (fun q => q.number)).length = qn.length
    · rw [if_pos hq] at ha
      rw [if_pos hq]
      rw [List.getLast?_singleton, Option.mem_def, Option.some.injEq] at ha
      subst ha
      rfl
    · rw [if_neg hq] at ha
      rw [if_neg hq]
      cases hrest : (retry_loop_aux r qn n (attempt + 1) true
          (qn.filter (fun q => q ∉ (r attempt).map (fun q => q.number))) (r attempt)).1 with
      | nil =>
        cases n with
        | zero =>
          rw [hrest] at ha
          rw [List.getLast?_singleton, Option.mem_def, Option.some.injEq] at ha
          subst ha
          rfl
        | succ m =>
          exact absurd hrest (retry_trace_ne_nil r qn (m + 1) (attempt + 1) true _ _ (by omega))
      | cons b t =>
        rw [hrest, List.getLast?_cons_cons, ← hrest] at ha
        exact ih (attempt + 1) true
          (qn.filter (fun q => q ∉ (r attempt).map (fun q => q.number))) (r attempt) a ha

/-- If the loop stopped before exhausting its budget, the last attempt
returned exactly the expected count. -/
theorem retry_early_stop (r : Nat → List Question) (qn : List Int) :
    ∀ fuel attempt hasFailed missing last,
      (retry_loop_aux r qn fuel attempt hasFailed missing last).1.length < fuel →
      ∀ a ∈ (retry_loop_aux r qn fuel attempt hasFailed missing last).1.getLast?,
        a.responseNumbers.length = qn.length := by
  intro fuel
  induction fuel with
  | zero =>
    intro attempt hasFailed missing last h
    omega
  | succ n ih =>
    intro attempt hasFailed missing last hlen a ha
    rw [retry_trace_succ] at hlen ha
    by_cases hq : ((r attempt).map (fun q => q.number)).length = qn.length
    · rw [if_pos hq] at ha
      rw [List.getLast?_singleton, Option.mem_def, Option.some.injEq] at ha
      subst ha
      exact hq
    · rw [if_neg hq] at hlen ha
      cases hrest : (retry_loop_aux r qn n (attempt + 1) true
          (qn.filter (fun q => q ∉ (r attempt).map (fun q => q.number))) (r attempt)).1 with
      | nil =>
        have hn : n = 0 := by
          by_contra hn0
          exact retry_trace_ne_nil r qn n (attempt + 1) true _ _ (by omega) hrest
        subst hn
        rw [hrest] at hlen
        simp at hlen
      | cons b t =>
        rw [hrest, List.getLast?_cons_cons, ← hrest] at ha
        rw [List.length_cons, hrest] at hlen
        refine ih (attempt + 1) true
          (qn.filter (fun q => q ∉ (r attempt).map (fun q => q.number))) (r attempt) ?_ a ha
        rw [hrest]
        simp only [List.length_cons] at hlen ⊢
        omega

/-- The final `response` value after the loop is the response of the
last attempt performed (attempt indices starting at the offset). -/
theorem retry_final_response (r : Nat → List Question) (qn : List Int) :
    ∀ fuel attempt hasFailed missing last,
      0 < fuel →
      (retry_loop_aux r qn fuel attempt hasFailed missing last).2 =
        r (attempt + (retry_loop_aux r qn fuel attempt hasFailed missing last).1.length - 1) := by
  intro fuel
  induction fuel with
  | zero =>
    intro attempt hasFailed missing last h
    omega
  | succ n ih =>
    intro attempt hasFailed missing last _
    rw [retry_final_succ, retry_trace_succ]
    by_cases hq : ((r attempt).map (fun q => q.number)).length = qn.length
    · rw [if_pos hq, if_pos hq]
      norm_num
    · rw [if_neg hq, if_neg hq]
      cases n with
      | zero =>
        have hres : retry_loop_aux r qn 0 (attempt + 1) true
            (qn.filter (fun q => q ∉ (r attempt).map (fun q => q.number))) (r attempt) =
            ([], r attempt) := rfl
        rw [hres]
        norm_num
      | succ m =>
        have h2 := ih (attempt + 1) true
          (qn.filter (fun q => q ∉ (r attempt).map (fun q => q.number))) (r attempt)
          (by omega)
        rw [h2, List.length_cons]
        congr 1
        have hne := retry_trace_ne_nil r qn (m + 1) (attempt + 1) true
          (qn.filter (fun q => q ∉ (r attempt).map (fun q => q.number))) (r attempt) (by omega)
        have hpos : 0 < (retry_loop_aux r qn (m + 1) (attempt + 1) true
            (qn.filter (fun q => q ∉ (r attempt).map (fun q => q.number))) (r attempt)).1.length :=
          List.length_pos.mpr hne
        omega

/-- C4: the reconciliation parse performs at most 3 attempts and at
least one; the first attempt carries no corrective feedback; every
attempt after a failed one passes as feedback the set difference between
the expected numbers and the numbers returned by the previous attempt
(`retryFeedbackRel`); the loop stops early exactly on an attempt whose
returned count equals the expected count (so a trace shorter than 3 ends
with a matching count); and after the loop the last attempt's response
is used as-is (its numbers are the last record's numbers, and it is
literally the response of the final attempt). -/
theorem C4_retry_loop (response : Nat → List Question) (question_numbers : List Int) :
    (run_retry_loop response question_numbers).1.length ≤ 3 ∧
    (run_retry_loop response question_numbers).1 ≠ [] ∧
    (∀ a ∈ (run_retry_loop response question_numbers).1.head?,
      a.hasFailed = false ∧ a.missingQuestions = []) ∧
    List.Chain' (retryFeedbackRel question_numbers)
      (run_retry_loop response question_numbers).1 ∧
    ((run_retry_loop response question_numbers).1.length < 3 →
      ∀ a ∈ (run_retry_loop response question_numbers).1.getLast?,
        a.responseNumbers.length = question_numbers.length) ∧
    (∀ a ∈ (run_retry_loop response question_numbers).1.getLast?,
      (run_retry_loop response question_numbers).2.map (fun q => q.number) =
        a.responseNumbers) ∧
    (run_retry_loop response question_numbers).2 =
      response ((run_retry_loop response question_numbers).1.length - 1) := by
  refine ⟨retry_trace_length_le response question_numbers 3 0 false [] [],
    retry_trace_ne_nil response question_numbers 3 0 false [] [] (by norm_num),
    fun a ha => ?_,
    retry_trace_chain response question_numbers 3 0 false [] [],
    retry_early_stop response question_numbers 3 0 false [] [],
    retry_final_eq_last response question_numbers 3 0 false [] [],
    ?_⟩
  · have hh := retry_trace_head response question_numbers 3 0 false [] [] a ha
    exact ⟨hh.1, hh.2.1⟩
  · have h := retry_final_response response question_numbers 3 0 false [] [] (by norm_num)
    simpa using h

/-- Witness for C4 at a collaborator that always returns no questions
against expected numbers [1]: all three attempts fail, the trace has
length 3, and the final response is that of the last attempt. -/
theorem C4_retry_loop_witness :
    (run_retry_loop (fun _ => ([] : List Question)) [1]).1.length ≤ 3 ∧
    (run_retry_loop (fun _ => ([] : List Question)) [1]).2 =
      (fun _ => ([] : List Question))
        ((run_retry_loop (fun _ => ([] : List Question)) [1]).1.length - 1) ∧
    (run_retry_loop (fun _ => ([] : List Question)) [1]).1.length = 3 := by
  have h := C4_retry_loop (fun _ => ([] : List Question)) [1]
  exact ⟨h.1, h.2.2.2.2.2.2, by decide⟩

/-- Folding list append over the per-page contributions starting from an
accumulator concatenates the accumulator with their flattening. -/
theorem foldl_append_eq_flatten (contributions : List (List Question)) :
    ∀ init : List Question,
      contributions.foldl (fun exam_questions c => exam_questions ++ c) init =
        init ++ contributions.flatten := by
  induction contributions with
  | nil => intro init; simp
  | cons c cs ih =>
    intro init
    simp only [List.foldl_cons, List.flatten_cons, ih (init ++ c), List.append_assoc]

/-- Every page-of-origin tag in `origin_tags contributions k` is at
least `k`. -/
theorem origin_tags_ge (contributions : List (List Question)) :
    ∀ k, ∀ x ∈ origin_tags contributions k, k ≤ x := by
  induction contributions with
  | nil =>
    intro k x hx
    simp [origin_tags] at hx
  | cons c cs ih =>
    intro k x hx
    rw [origin_tags] at hx
    rcases List.mem_append.mp hx with h | h
    · rw [List.eq_of_mem_replicate h]
    · exact le_trans (by omega) (ih (k + 1) x h)

/-- The page-of-origin tags of the merged question list are
non-decreasing. -/
theorem origin_tags_sorted (contributions : List (List Question)) :
    ∀ k, List.Sorted (· ≤ ·) (origin_tags contributions k) := by
  induction contributions with
  | nil =>
    intro k
    simp [origin_tags, List.Sorted]
  | cons c cs ih =>
    intro k
    rw [origin_tags]
    show List.Pairwise (· ≤ ·) (List.replicate c.length k ++ origin_tags cs (k + 1))
    refine List.pairwise_append.mpr ⟨?_, ih (k + 1), ?_⟩
    · exact List.pairwise_replicate.mpr (Or.inr le_rfl)
    · intro a ha b hb
      rw [List.eq_of_mem_replicate ha]
      exact le_trans (by omega) (origin_tags_ge cs (k + 1) b hb)

/-- The origin tags align positionally with the flattened merge. -/
theorem origin_tags_length (contributions : List (List Question)) :
    ∀ k, (origin_tags contributions k).length = contributions.flatten.length := by
  induction contributions with
  | nil => intro k; rfl
  | cons c cs ih =>
    intro k
    simp [origin_tags, ih (k + 1)]

/-- A page's contribution is its real parsed questions followed by some
number of copies of the placeholder question. -/
theorem page_contribution_shape (question_numbers : List Int)
    (response_questions : List Question) (current_page_index num_images : Nat)
    (next_page_map : Option (List Int)) :
    ∃ m, page_contribution question_numbers response_questions current_page_index
        num_images next_page_map =
      response_questions ++ List.replicate m filling_question := by
  unfold page_contribution
  rw [filling_questions_eq]
  by_cases h : 0 < questions_count_difference_base question_numbers response_questions +
      cross_page_gap_adjustment question_numbers current_page_index num_images next_page_map ∧
      questions_count_difference_base question_numbers response_questions +
      cross_page_gap_adjustment question_numbers current_page_index num_images next_page_map < 8
  · exact ⟨_, by rw [if_pos h]⟩
  · refine ⟨0, ?_⟩
    rw [if_neg h]
    rfl

/-- C8: the global question list is exactly the concatenation of the
per-page contributions in page-index order (the content-pass merge is a
fold of append starting from the empty list), the page-of-origin tags of
that concatenation are non-decreasing and align positionally with it,
and within each page's contribution every real parsed question precedes
every synthesized placeholder. -/
theorem C8_ordering :
    (∀ contributions : List (List Question),
      content_pass_merge contributions = contributions.flatten) ∧
    (∀ (contributions : List (List Question)) (k : Nat),
      List.Sorted (· ≤ ·) (origin_tags contributions k) ∧
      (origin_tags contributions k).length = (content_pass_merge contributions).length) ∧
    (∀ (question_numbers : List Int) (response_questions : List Question)
        (current_page_index num_images : Nat) (next_page_map : Option (List Int)),
      ∃ m, page_contribution question_numbers response_questions current_page_index
          num_images next_page_map =
        response_questions ++ List.replicate m filling_question) := by
  have hmerge : ∀ contributions : List (List Question),
      content_pass_merge contributions = contributions.flatten := by
    intro contributions
    rw [content_pass_merge, foldl_append_eq_flatten]
    rfl
  refine ⟨hmerge, fun contributions k => ⟨origin_tags_sorted contributions k, ?_⟩,
    page_contribution_shape⟩
  rw [origin_tags_length, hmerge]

end FmpAgent
